import Mathlib

/-!
Shallow embedding of the core of `lwc-dev-mobile-core` (TypeScript) and a
verification of its natural-language specification.

Embedded source files:
* `src/common/Common.ts` — `Version` (parsing/comparison), `IOSSimulatorDevice`
  (simulator JSON parsing and label derivation), `IOSLauncher.launchPreview`.
* `src/common/AndroidLauncher.ts` — `AndroidLauncher.launchPreview`.
* `Requirements.ts` (the bundled requirements engine) — `WrappedPromise`,
  `BaseSetup.executeSetup`.

Strings are modelled as Lean `String`/`List Char` (JS strings are UTF-16 code
unit sequences; we compare by code point, which agrees on the Basic
Multilingual Plane and on all inputs appearing in this repository).
JS numbers are modelled as exact integers (`Nat`/`Int`); all integers handled
by this code are far below 2^53 where JS arithmetic is exact.
-/

/-! ### Basic character/string helpers -/

/-- Model of `String.prototype.trim`: drop whitespace from both ends. -/
def trimChars (l : List Char) : List Char :=
  ((l.dropWhile Char.isWhitespace).reverse.dropWhile Char.isWhitespace).reverse

/-- A character list matching the regex fragment `0|[1-9]\d*` (a decimal
numeral with no leading zero). -/
def numLit (l : List Char) : Bool :=
  match l with
  | [] => false
  | c :: cs => (c == '0' && cs.isEmpty) || (('1' ≤ c && c ≤ '9') && cs.all Char.isDigit)

/-- Model of `Number.parseInt(digits, 10)` on a string of decimal digits. -/
def digitsVal (l : List Char) : Nat :=
  l.foldl (fun a c => a * 10 + (c.toNat - 48)) 0

/-- Fuel-based helper for decimal printing (structural recursion so that the
kernel can evaluate it; the fuel is always sufficient). -/
def natToCharsAux : Nat → Nat → List Char
  | 0, _ => []
  | fuel + 1, n =>
    if n < 10 then [Char.ofNat (48 + n)]
    else natToCharsAux fuel (n / 10) ++ [Char.ofNat (48 + n % 10)]

/-- Decimal printing of a natural number (the integer case of JS
number-to-string conversion, as used by template literals). -/
def natToChars (n : Nat) : List Char := natToCharsAux (n + 1) n

/-- Decimal printing of an integer (JS number-to-string on integers). -/
def intToChars (i : Int) : List Char :=
  if i < 0 then '-' :: natToChars (-i).toNat else natToChars i.toNat

deriving instance DecidableEq for Except

/-! ### `Version` (src/common/Common.ts) -/

/-- A character matching the regex character class `[-.]` (the
`Separator` group of the version regex). -/
def isSep (c : Char) : Bool := c == '-' || c == '.'

/-- Split a character list at every separator character, keeping the
separators: `breakSeps "1.2-3" = ("1", [('.', "2"), ('-', "3")])`. -/
def breakSeps : List Char → List Char × List (Char × List Char)
  | [] => ([], [])
  | c :: cs =>
    let r := breakSeps cs
    if isSep c then ([], (c, r.1) :: r.2) else (c :: r.1, r.2)

/-- The named capture groups of the version regex
`^(?<Major>0|[1-9]\d*)((?<Separator>[-.])(?<Minor>0|[1-9]\d*))?(\k<Separator>(?<Patch>0|[1-9]\d*))?$`. -/
structure RegexGroups where
  major : List Char
  sep : Option Char
  minor : Option (List Char)
  patch : Option (List Char)
deriving DecidableEq, Repr

/-- Model of executing the version regex of `Version.from` with ECMAScript
semantics. A case analysis of the backtracking engine shows the accepted
strings are exactly:
* `M` with `M` matching `0|[1-9]\d*` (no separator; `Minor`/`Patch` unset);
* `'0' ++ P` with `P` matching `0|[1-9]\d*` — here `Major` can only match
  `"0"`, the `Minor` group does not participate, and per ECMAScript a
  backreference to an unparticipated group (`\k<Separator>`) matches the
  empty string, so `Patch` consumes the rest;
* `M s m` and `M s m s p` with one consistent separator `s ∈ [-.]` and all
  parts matching `0|[1-9]\d*` (a mixed or repeated separator fails, since
  digit groups cannot consume separator characters and `\k<Separator>` must
  repeat the first separator). -/
def versionRegexExec (l : List Char) : Option RegexGroups :=
  match breakSeps l with
  | (p0, []) =>
    if numLit p0 then some ⟨p0, none, none, none⟩
    else
      match p0 with
      | '0' :: rest => if numLit rest then some ⟨['0'], none, none, some rest⟩ else none
      | _ => none
  | (p0, [(c, p1)]) =>
    if numLit p0 && numLit p1 then some ⟨p0, some c, some p1, none⟩ else none
  | (p0, [(c1, p1), (c2, p2)]) =>
    if c1 == c2 && numLit p0 && numLit p1 && numLit p2 then
      some ⟨p0, some c1, some p1, some p2⟩
    else none
  | _ => none

/-- `Version` — `{major, minor, patch}`. The TypeScript constructor accepts
arbitrary numbers, so the fields are integers. -/
structure Version where
  major : Int
  minor : Int
  patch : Int
deriving DecidableEq, Repr

/-- `Version.from` (named `fromString` here because `from` is a Lean keyword):
trim the input, run the version regex, return `null` on no match, otherwise
build a `Version` where an absent `Minor`/`Patch` group defaults to `0`. -/
def Version.fromString (input : String) : Option Version :=
  let trimmedInput := trimChars input.data
  match versionRegexExec trimmedInput with
  | none => none
  | some g =>
    some ⟨(digitsVal g.major : Nat), ((g.minor.map digitsVal).getD 0 : Nat),
          ((g.patch.map digitsVal).getD 0 : Nat)⟩

/-- `Version.toString`: the template literal `${major}.${minor}.${patch}`. -/
def versionToString (v : Version) : String :=
  ⟨intToChars v.major ++ '.' :: intToChars v.minor ++ '.' :: intToChars v.patch⟩

/-- An argument of `Version.compare`: `Version | string`. -/
inductive VOrS where
  | ver (v : Version)
  | str (s : String)
deriving DecidableEq, Repr

/-- `typeof v === 'string' ? Version.from(v) : v`. -/
def toVer : VOrS → Option Version
  | .ver v => some v
  | .str s => Version.fromString s

/-- `v.toString()` on a `Version | string` argument. -/
def vosText : VOrS → String
  | .ver v => versionToString v
  | .str s => s

/-- Model of `a.localeCompare(b, undefined, { sensitivity: 'accent' }) === 0`:
a case-insensitive (but accent-sensitive) equality test. Case folding is
modelled by `Char.toLower`. -/
def localeEq (a b : String) : Bool :=
  a.data.map Char.toLower == b.data.map Char.toLower

/-- `Version.compare`. Both sides `null` (unparsable codenames): equal up to
`localeCompare` gives `0`, otherwise the function throws (modelled as
`Except.error`). Exactly one side `null`: the codename side is newer. Both
parsed: the code compares the weighted sums `major*100 + minor*10 + patch`. -/
def Version.compareE (v1 v2 : VOrS) : Except String Int :=
  match toVer v1, toVer v2 with
  | none, none =>
    if localeEq (vosText v1) (vosText v2) then .ok 0
    else .error "Comparing 2 codename versions is not supported."
  | none, some _ => .ok 1
  | some _, none => .ok (-1)
  | some version1, some version2 =>
    let num1 := version1.major * 100 + version1.minor * 10 + version1.patch
    let num2 := version2.major * 100 + version2.minor * 10 + version2.patch
    if num1 = num2 then .ok 0
    else if num1 < num2 then .ok (-1)
    else .ok 1

/-! ### `IOSSimulatorDevice` (src/common/Common.ts) -/

/-- Model of `String.prototype.replace` with a string pattern: replace the
first (leftmost) occurrence of `pat` by `repl`. -/
def replaceFirst (pat repl : List Char) : List Char → List Char
  | [] => []
  | c :: cs =>
    if pat.isPrefixOf (c :: cs) then repl ++ (c :: cs).drop pat.length
    else c :: replaceFirst pat repl cs

/-- Model of `String.prototype.replace` with a global single-character regex
(the dash regex with flags `gi` in the source): replace every occurrence of
`t` by `r`. -/
def replaceAll (t r : Char) (l : List Char) : List Char :=
  l.map (fun c => if c == t then r else c)

/-- The runtime-label conversion performed by the `IOSSimulatorDevice`
constructor: strip the first occurrence of the SimRuntime prefix, turn the
first `-` into a space, then every remaining `-` into `.`. -/
def simRuntimeLabel (runtimeId : List Char) : List Char :=
  replaceAll '-' '.'
    (replaceFirst ['-'] [' ']
      (replaceFirst "com.apple.CoreSimulator.SimRuntime.".data [] runtimeId))

structure IOSSimulatorDevice where
  name : String
  udid : String
  state : String
  runtimeId : String
  isAvailable : Bool
deriving DecidableEq, Repr

/-- The `IOSSimulatorDevice` constructor (it stores the converted label in
the `runtimeId` field). -/
def mkIOSSimulatorDevice (name udid state runtimeId : String) (isAvailable : Bool) :
    IOSSimulatorDevice :=
  ⟨name, udid, state, ⟨simRuntimeLabel runtimeId.data⟩, isAvailable⟩

/-- A raw device record as read from the `simctl` JSON payload. -/
structure DeviceJSON where
  name : String
  udid : String
  state : String
  isAvailable : Bool
deriving DecidableEq, Repr

/-- The parsed JSON payload handed to `parseJSONString`. `devices = none`
models a payload whose top-level `devices` key is absent (or falsy). The
devices object is an association list keyed by runtime identifier (JSON
object keys are unique; `Object.keys` returns them in this order). -/
structure DevicesPayload where
  devices : Option (List (String × List DeviceJSON))
deriving DecidableEq, Repr

/-- A character matched by an unescaped `.` in a JS regex (anything but a
line terminator). -/
def jsDot (c : Char) : Bool :=
  !(c == '\n' || c == '\r' || c == '\u2028' || c == '\u2029')

/-- Whether the runtime-filter regex matches at the start of suffix `t` of a
key. The regex source is built from the template
`` `\.SimRuntime\.(${supportedRuntimes.join('|')})` ``; inside a JS template
literal `\.` is just `.`, so the pattern is `.SimRuntime.(alt|…)` with two
match-anything dots. -/
def runtimePatAt (alts : List (List Char)) (t : List Char) : Bool :=
  match t with
  | [] => false
  | c0 :: rest =>
    jsDot c0 && "SimRuntime".data.isPrefixOf rest &&
      (match rest.drop 10 with
       | [] => false
       | c1 :: rest2 => jsDot c1 && alts.any (fun r => r.isPrefixOf rest2))

/-- Model of `key.match(runtimeMatchRegex) !== null` (an unanchored search).
An empty `supportedRuntimes` list joins to the empty alternative, which
matches the empty string. -/
def runtimeKeyMatches (supportedRuntimes : List String) (key : String) : Bool :=
  let alts := if supportedRuntimes.isEmpty then [([] : List Char)]
              else supportedRuntimes.map String.data
  key.data.tails.any (runtimePatAt alts)

/-- Lexicographic `≤` on character lists by code point (JS string comparison
is by UTF-16 code unit; the two agree on the Basic Multilingual Plane). -/
def lexLe : List Char → List Char → Bool
  | [], _ => true
  | _ :: _, [] => false
  | a :: as, b :: bs => if a < b then true else if b < a then false else lexLe as bs

/-- The relation used to model `Array.prototype.sort()` on strings. -/
def StrLe (a b : String) : Prop := lexLe a.data b.data = true

instance : DecidableRel StrLe := fun _ _ => inferInstanceAs (Decidable (_ = true))

/-- First-match association-list lookup, modelling property access
`runtimeDevices[runtimeIdentifier]` (JSON object keys are unique, so first
match is the match). -/
def lookupKey (k : String) (m : List (String × List DeviceJSON)) : List DeviceJSON :=
  ((m.find? (fun p => p.1 == k)).map Prod.snd).getD []

/-- The runtime keys retained by `parseJSONString`, in the order it visits
them: filter to truthy keys matching the runtime regex
(`key && key.match(...)`), sort ascending (`Array.sort()` on strings is a
stable lexicographic sort; with unique keys the sorted list is unique, so a
sorted permutation — here insertion sort — models it exactly), then reverse. -/
def sortedRuntimeKeys (runtimeDevices : List (String × List DeviceJSON))
    (supportedRuntimes : List String) : List String :=
  let runtimes := (runtimeDevices.map Prod.fst).filter
    (fun key => !(key == "") && runtimeKeyMatches supportedRuntimes key)
  (runtimes.insertionSort StrLe).reverse

/-- `IOSSimulatorDevice.parseJSONString`. The `jsonString` argument is
modelled post-`JSON.parse`: `none` stands for a string that is not
well-formed JSON, on which `JSON.parse` throws (modelled as `.error`). -/
def parseJSONString (parsed : Option DevicesPayload) (supportedRuntimes : List String) :
    Except String (List IOSSimulatorDevice) :=
  match parsed with
  | none => .error "SyntaxError: Unexpected token in JSON"
  | some devicesJSON =>
    let runtimeDevices := devicesJSON.devices.getD []
    let runtimes := sortedRuntimeKeys runtimeDevices supportedRuntimes
    .ok (runtimes.flatMap (fun runtimeIdentifier =>
      (lookupKey runtimeIdentifier runtimeDevices).map (fun device =>
        mkIOSSimulatorDevice device.name device.udid device.state runtimeIdentifier
          device.isAvailable)))

/-! ### Requirements engine (`WrappedPromise`, `BaseSetup.executeSetup`) -/

/-- A `Requirement` together with the settled outcome of its asynchronous
`checkFunction()` and the duration measured for it by the performance
observer. `checkResult` is `.ok msg` for a fulfilled check (the check
resolves with `string | undefined`) and `.error reason` for a rejected one. -/
structure Requirement where
  title : String
  supplementalMessage : Option String
  checkResult : Except String (Option String)
  duration : Nat
deriving DecidableEq, Repr

/-- The record a `WrappedPromise` resolves with. -/
structure WrappedPromiseResult where
  message : Option String
  status : String
  duration : Nat
  requirement : Requirement
deriving DecidableEq, Repr

/-- `WrappedPromise`: it never rejects — a fulfilled check maps to a
`'fulfilled'` record, a rejected one is caught and mapped to a `'rejected'`
record, so `Promise.all` over wrapped promises settles every check. -/
def WrappedPromise (requirement : Requirement) : WrappedPromiseResult :=
  match requirement.checkResult with
  | .ok v => ⟨v, "fulfilled", requirement.duration, requirement⟩
  | .error e => ⟨some e, "rejected", requirement.duration, requirement⟩

structure SetupTestCase where
  title : String
  testResult : String
  message : Option String
  hasPassed : Bool
  supplementalMessage : Option String
  duration : Nat
deriving DecidableEq, Repr

structure SetupTestResult where
  hasMetAllRequirements : Bool
  tests : List SetupTestCase
deriving DecidableEq, Repr

/-- The body of the `results.forEach` reducer in `executeSetup`. The
localized `passed`/`failed` messages are modelled by those literals. -/
def setupReduceStep (testResult : SetupTestResult) (result : WrappedPromiseResult) :
    SetupTestResult :=
  if result.status == "fulfilled" then
    { testResult with
      tests := testResult.tests ++
        [⟨result.requirement.title, "passed", result.message, true,
          result.requirement.supplementalMessage, result.duration⟩] }
  else if result.status == "rejected" then
    { hasMetAllRequirements := false,
      tests := testResult.tests ++
        [⟨result.requirement.title, "failed", result.message, false,
          result.requirement.supplementalMessage, result.duration⟩] }
  else testResult

/-- `BaseSetup.executeSetup`: wrap every requirement, wait for all of them
(`Promise.all` over never-rejecting promises collects every result in
order), then reduce into a `SetupTestResult` starting from
`{hasMetAllRequirements := true, tests := []}`. -/
def executeSetup (requirements : List Requirement) : SetupTestResult :=
  (requirements.map WrappedPromise).foldl setupReduceStep ⟨true, []⟩

/-! ### Launch orchestration (`AndroidLauncher.launchPreview`,
`IOSLauncher.launchPreview`) -/

/-- The externally visible operations a launch pipeline issues, in order.
Only the arguments relevant to the verified claims are recorded. -/
inductive LaunchOp where
  | findEmulator (name : String)
  | createAVD (name : String) (image api device abi : String)
  | startEmulator (name : String) (requestedPort : Nat)
  | pollDeviceStatus (port : Nat)
  | launchURLIntent (url : String) (port : Nat)
  | launchNativeApp (compName projectDir targetApp : String) (port : Nat)
      (address serverPort : Option String)
  | getSimulator (name : String)
  | createSimDevice (name : String) (deviceType runtime : String)
  | bootDevice (udid : String)
  | launchSimulatorApp
  | launchURLInBootedSimulator (udid : String) (url : String)
  | launchAppInBootedSimulator (udid : String) (targetApp : String)
      (args : List (String × String))
deriving DecidableEq, Repr

/-- JS template literals stringify `undefined` as `"undefined"`. -/
def optStr (o : Option String) : String := o.getD "undefined"

/-- The environment an `AndroidLauncher.launchPreview` run observes: the
constructor argument, the call arguments, and the results of the external
collaborators (`AndroidUtils`, `PreviewUtils`) it consults. `actualPort` is
the port value with which `AndroidUtils.startEmulator` resolves (the port the
emulator process actually reports). `compPath` stands for
`PreviewUtils.prefixRouteIfNeeded(compName)`. -/
structure AndroidEnv where
  emulatorName : String
  compName : String
  projectDir : String
  targetApp : String
  serverPort : String
  emuImage : String
  androidApi : String
  device : String
  abi : String
  hasEmulator : Bool
  requestedPort : Nat
  actualPort : Nat
  useServer : Bool
  targetingBrowser : Bool
  compPath : String
deriving DecidableEq, Repr

/-- `AndroidLauncher.launchPreview` as the ordered trace of operations it
issues. The promise chain assigns `emulatorPort = actualPort` as soon as
`startEmulator` resolves, so every later step reads the reassigned
variable. -/
def androidLaunchPreview (env : AndroidEnv) : List LaunchOp :=
  let address := if env.useServer then some "http://10.0.2.2" else none
  let port := if env.useServer then some env.serverPort else none
  [LaunchOp.findEmulator env.emulatorName] ++
  (if env.hasEmulator then []
   else [LaunchOp.createAVD env.emulatorName env.emuImage env.androidApi env.device env.abi]) ++
  [LaunchOp.startEmulator env.emulatorName env.requestedPort,
   LaunchOp.pollDeviceStatus env.actualPort] ++
  (if env.targetingBrowser then
    [LaunchOp.launchURLIntent
      (optStr address ++ ":" ++ optStr port ++ "/lwc/preview/" ++ env.compPath)
      env.actualPort]
  else
    [LaunchOp.launchNativeApp env.compName env.projectDir env.targetApp env.actualPort
      address port])

/-- The port a trace operation uses to address the running emulator
instance (`startEmulator` takes the port it merely requests, so it is not
included). -/
def devicePortOf : LaunchOp → Option Nat
  | .pollDeviceStatus p => some p
  | .launchURLIntent _ p => some p
  | .launchNativeApp _ _ _ p _ _ => some p
  | _ => none

/-- The environment an `IOSLauncher.launchPreview` run observes, analogous
to `AndroidEnv`. `currentSimulatorUDID` is `IOSUtils.getSimulator(...)?.udid`
and `createdUDID` the UDID `IOSUtils.createNewDevice` resolves with. -/
structure IOSEnv where
  simulatorName : String
  compName : String
  projectDir : String
  targetApp : String
  serverPort : String
  availableDeviceType : String
  supportedRuntime : String
  currentSimulatorUDID : Option String
  createdUDID : String
  useServer : Bool
  targetingBrowser : Bool
  targetingLwrServer : Bool
  compPath : String
deriving DecidableEq, Repr

/-- `!currentSimulatorUDID || currentSimulatorUDID.length === 0` selects the
create path; otherwise the found UDID is used. -/
def iosDeviceUDID (env : IOSEnv) : String :=
  match env.currentSimulatorUDID with
  | none => env.createdUDID
  | some u => if u = "" then env.createdUDID else u

/-- `IOSLauncher.launchPreview` as the ordered trace of operations it
issues (the launch-arguments constants of `PreviewUtils` are modelled by
their names). -/
def iosLaunchPreview (env : IOSEnv) : List LaunchOp :=
  let address := if env.useServer then some "http://localhost" else none
  let port := if env.useServer then some env.serverPort else none
  let deviceUDID := iosDeviceUDID env
  [LaunchOp.getSimulator env.simulatorName] ++
  (if (match env.currentSimulatorUDID with
       | none => true
       | some u => u = "") then
    [LaunchOp.createSimDevice env.simulatorName env.availableDeviceType env.supportedRuntime]
  else []) ++
  [LaunchOp.bootDevice deviceUDID, LaunchOp.launchSimulatorApp] ++
  (if env.targetingBrowser then
    [LaunchOp.launchURLInBootedSimulator deviceUDID
      (if env.targetingLwrServer then optStr address ++ ":" ++ optStr port
       else optStr address ++ ":" ++ optStr port ++ "/lwc/preview/" ++ env.compPath)]
  else
    [LaunchOp.launchAppInBootedSimulator deviceUDID env.targetApp
      ([("ComponentNameArgPrefix", env.compName), ("ProjectDirArgPrefix", env.projectDir)] ++
       (match address with | some a => [("ServerAddressPrefix", a)] | none => []) ++
       (match port with | some p => [("ServerPortPrefix", p)] | none => []))])

/-! ### Helper functions and lemmas for the requirements engine -/

/-- Whether a requirement's settled check fulfilled. -/
def reqPassed (r : Requirement) : Bool :=
  match r.checkResult with
  | .ok _ => true
  | .error _ => false

/-- The `SetupTestCase` that `executeSetup` records for a requirement. -/
def reqCase (r : Requirement) : SetupTestCase :=
  match r.checkResult with
  | .ok v => ⟨r.title, "passed", v, true, r.supplementalMessage, r.duration⟩
  | .error e => ⟨r.title, "failed", some e, false, r.supplementalMessage, r.duration⟩

lemma setup_foldl_spec (reqs : List Requirement) (acc : SetupTestResult) :
    (reqs.map WrappedPromise).foldl setupReduceStep acc =
      ⟨acc.hasMetAllRequirements && reqs.all reqPassed, acc.tests ++ reqs.map reqCase⟩ := by
  induction reqs generalizing acc with
  | nil => simp
  | cons r rs ih =>
    cases acc with
    | mk met tests =>
      simp only [List.map_cons, List.foldl_cons, List.all_cons]
      rw [ih]
      cases h : r.checkResult with
      | ok v =>
        simp [setupReduceStep, WrappedPromise, h, reqPassed, reqCase]
      | error e =>
        simp [setupReduceStep, WrappedPromise, h, reqPassed, reqCase]

/-- Three requirements, the middle one always rejecting. -/
def exampleThreeRequirements : List Requirement :=
  [⟨"req1", none, .ok (some "ok1"), 1⟩,
   ⟨"req2", none, .error "check failed", 2⟩,
   ⟨"req3", some "extra", .ok none, 3⟩]

/-! ### Claim theorems -/

/-- C1 (code bug): the claim says `Version.compare` orders parsed versions by
major, then minor, then patch, returning 0 exactly for equal triples. The
code instead compares the weighted sums `major*100 + minor*10 + patch`:
`"1.10.0"` parses to `(1, 10, 0)` and `"2.0.0"` to `(2, 0, 0)` — distinct
triples with the first lexicographically smaller, so the claim requires `-1`
— yet both weigh 200 and `compare` returns `0` (so `Version.same` even calls
them the same, contradicting the function's own documentation). -/
theorem version_compare_weighted_sum_collision :
    Version.fromString "1.10.0" = some ⟨1, 10, 0⟩ ∧
    Version.fromString "2.0.0" = some ⟨2, 0, 0⟩ ∧
    Version.compareE (.str "1.10.0") (.str "2.0.0") = .ok 0 ∧
    Version.compareE (.ver ⟨1, 10, 0⟩) (.ver ⟨2, 0, 0⟩) = .ok 0 := by
  refine ⟨by decide, by decide, by decide, by decide⟩

/-- C3: for two version strings, when neither parses, `compare` returns 0
iff they are equal under the case-insensitive `localeCompare` test and
otherwise throws the unsupported-comparison error; when exactly one side
fails to parse, the unparsable (codename) side compares as newer. -/
theorem version_compare_codename_policy (a b : String)
    (ha : Version.fromString a = none) :
    ((Version.fromString b = none ∧ localeEq a b = true →
        Version.compareE (.str a) (.str b) = .ok 0) ∧
     (Version.fromString b = none ∧ localeEq a b = false →
        Version.compareE (.str a) (.str b) =
          .error "Comparing 2 codename versions is not supported.")) ∧
    (∀ v, Version.fromString b = some v →
        Version.compareE (.str a) (.str b) = .ok 1 ∧
        Version.compareE (.str b) (.str a) = .ok (-1)) := by
  refine ⟨⟨fun ⟨hb, he⟩ => ?_, fun ⟨hb, he⟩ => ?_⟩, fun v hv => ⟨?_, ?_⟩⟩ <;>
    simp_all [Version.compareE, toVer, vosText]

/-- Witness for C3 at concrete codenames and versions. -/
theorem version_compare_codename_policy_witness :
    Version.compareE (.str "Tiramisu") (.str "tiramisu") = .ok 0 ∧
    Version.compareE (.str "Tiramisu") (.str "Oreo") =
      .error "Comparing 2 codename versions is not supported." ∧
    Version.compareE (.str "Tiramisu") (.str "30") = .ok 1 ∧
    Version.compareE (.str "30") (.str "Tiramisu") = .ok (-1) :=
  ⟨(version_compare_codename_policy "Tiramisu" "tiramisu" (by decide)).1.1
      ⟨by decide, by decide⟩,
   (version_compare_codename_policy "Tiramisu" "Oreo" (by decide)).1.2
      ⟨by decide, by decide⟩,
   ((version_compare_codename_policy "Tiramisu" "30" (by decide)).2 ⟨30, 0, 0⟩
      (by decide)).1,
   ((version_compare_codename_policy "Tiramisu" "30" (by decide)).2 ⟨30, 0, 0⟩
      (by decide)).2⟩

/-- C5: a string that is not well-formed JSON makes `parseJSONString` fail
with a parse error (`JSON.parse` throws), while a well-formed payload whose
top-level `devices` key is absent yields an empty device list, not an
error. -/
theorem parseJSONString_error_and_missing_devices (supported : List String) :
    parseJSONString none supported = .error "SyntaxError: Unexpected token in JSON" ∧
    ∀ payload : DevicesPayload, payload.devices = none →
      parseJSONString (some payload) supported = .ok [] := by
  refine ⟨rfl, fun payload h => ?_⟩
  simp [parseJSONString, h, sortedRuntimeKeys]

/-- Witness for C5 at a concrete payload with no `devices` key. -/
theorem parseJSONString_error_and_missing_devices_witness :
    parseJSONString none [] = .error "SyntaxError: Unexpected token in JSON" ∧
    parseJSONString (some ⟨none⟩) ["iOS-17-5"] = .ok [] :=
  ⟨(parseJSONString_error_and_missing_devices []).1,
   (parseJSONString_error_and_missing_devices ["iOS-17-5"]).2 ⟨none⟩ rfl⟩

/-- C2: `executeSetup` records exactly one outcome per requirement, in
order (no rejection suppresses another check's outcome), and
`hasMetAllRequirements` is true iff every check fulfilled; with three
requirements of which one always rejects, the report has
`hasMetAllRequirements = false` and exactly 3 recorded outcomes. -/
theorem executeSetup_settles_every_requirement (requirements : List Requirement) :
    (executeSetup requirements).tests.length = requirements.length ∧
    (executeSetup requirements).tests.map SetupTestCase.title =
      requirements.map Requirement.title ∧
    ((executeSetup requirements).hasMetAllRequirements = true ↔
      ∀ r ∈ requirements, ∃ v, r.checkResult = .ok v) ∧
    (executeSetup exampleThreeRequirements).hasMetAllRequirements = false ∧
    (executeSetup exampleThreeRequirements).tests.length = 3 := by
  have hfold := setup_foldl_spec requirements ⟨true, []⟩
  refine ⟨?_, ?_, ?_, by decide, by decide⟩
  · rw [executeSetup, hfold]; simp
  · rw [executeSetup, hfold]
    simp only [List.nil_append, List.map_map]
    refine List.map_congr_left fun r _ => ?_
    cases h : r.checkResult <;> simp [reqCase, h]
  · rw [executeSetup, hfold]
    simp only [Bool.true_and, List.all_eq_true]
    constructor
    · intro h r hr
      have := h r hr
      cases hc : r.checkResult with
      | ok v => exact ⟨v, rfl⟩
      | error e => simp [reqPassed, hc] at this
    · intro h r hr
      obtain ⟨v, hv⟩ := h r hr
      simp [reqPassed, hv]

/-- C6: once `startEmulator` resolves with the port the emulator process
reports, every subsequent operation that addresses the running instance
(boot-status polling, browser URL intent launch, native app launch) uses
that process-reported port, never the initially allocated one. -/
theorem android_post_start_ops_use_actual_port (env : AndroidEnv) :
    LaunchOp.pollDeviceStatus env.actualPort ∈ androidLaunchPreview env ∧
    ∀ op ∈ androidLaunchPreview env, ∀ p, devicePortOf op = some p →
      p = env.actualPort := by
  constructor
  · by_cases h1 : env.hasEmulator <;> by_cases h2 : env.targetingBrowser <;>
      simp [androidLaunchPreview, h1, h2]
  · intro op hop p hp
    by_cases h1 : env.hasEmulator <;> by_cases h2 : env.targetingBrowser <;>
      simp [androidLaunchPreview, h1, h2] at hop <;>
      cases op <;> simp [devicePortOf] at hp <;> simp_all

/-- A concrete Android launch environment (requested port 5554, but the
emulator process reports 5560). -/
def exampleAndroidEnv : AndroidEnv :=
  ⟨"Pixel_5_API_31", "c/helloWorld", "/proj", "com.salesforce.test", "3333",
   "default", "30", "pixel_5", "x86_64", true, 5554, 5560, true, true,
   "c/helloWorld"⟩

/-- Witness for C6: in the concrete environment, the poll operation is in
the trace and its port is the process-reported one. -/
theorem android_post_start_ops_use_actual_port_witness :
    LaunchOp.pollDeviceStatus 5560 ∈ androidLaunchPreview exampleAndroidEnv ∧
    (5560 : Nat) = exampleAndroidEnv.actualPort :=
  ⟨(android_post_start_ops_use_actual_port exampleAndroidEnv).1,
   (android_post_start_ops_use_actual_port exampleAndroidEnv).2
     (.pollDeviceStatus 5560)
     (android_post_start_ops_use_actual_port exampleAndroidEnv).1 5560 rfl⟩

/-- C9: with the system browser as preview target and the local dev server
in use, the Android launcher launches
`http://10.0.2.2:<port>/lwc/preview/<route>` while the iOS launcher launches
`http://localhost:<port>/lwc/preview/<route>` — same route scheme on a
platform-specific loopback host, and the two hosts differ. -/
theorem browser_preview_urls (aenv : AndroidEnv) (ienv : IOSEnv)
    (ha1 : aenv.useServer = true) (ha2 : aenv.targetingBrowser = true)
    (hi1 : ienv.useServer = true) (hi2 : ienv.targetingBrowser = true)
    (hi3 : ienv.targetingLwrServer = false) :
    LaunchOp.launchURLIntent
        ("http://10.0.2.2:" ++ aenv.serverPort ++ "/lwc/preview/" ++ aenv.compPath)
        aenv.actualPort ∈ androidLaunchPreview aenv ∧
    LaunchOp.launchURLInBootedSimulator (iosDeviceUDID ienv)
        ("http://localhost:" ++ ienv.serverPort ++ "/lwc/preview/" ++ ienv.compPath)
      ∈ iosLaunchPreview ienv ∧
    ("http://10.0.2.2" : String) ≠ "http://localhost" := by
  have hA : ("http://10.0.2.2" : String) ++ ":" = "http://10.0.2.2:" := rfl
  have hI : ("http://localhost" : String) ++ ":" = "http://localhost:" := rfl
  refine ⟨?_, ?_, by decide⟩
  · rw [← hA]
    by_cases h1 : aenv.hasEmulator <;>
      simp [androidLaunchPreview, ha1, ha2, h1, optStr]
  · rw [← hI]
    rcases hu : ienv.currentSimulatorUDID with _ | u <;>
      simp [iosLaunchPreview, hi1, hi2, hi3, hu, optStr]

/-! ### Order lemmas for the runtime-key sort -/

lemma lexLe_total : ∀ a b : List Char, lexLe a b = true ∨ lexLe b a = true := by
  intro a
  induction a with
  | nil => intro b; left; rfl
  | cons x xs ih =>
    intro b
    cases b with
    | nil => right; rfl
    | cons y ys =>
      rcases lt_trichotomy x y with h | h | h
      · left; simp [lexLe, h]
      · subst h
        rcases ih ys with h2 | h2
        · left; simp [lexLe, lt_irrefl, h2]
        · right; simp [lexLe, lt_irrefl, h2]
      · right; simp [lexLe, h]

lemma lexLe_cons_eq (x y : Char) (xs ys : List Char) :
    lexLe (x :: xs) (y :: ys) =
      if x < y then true else if y < x then false else lexLe xs ys := rfl

lemma lexLe_trans : ∀ a b c : List Char,
    lexLe a b = true → lexLe b c = true → lexLe a c = true := by
  intro a
  induction a with
  | nil => intro b c _ _; rfl
  | cons x xs ih =>
    intro b c hab hbc
    cases b with
    | nil => exact absurd hab (by simp [lexLe])
    | cons y ys =>
      cases c with
      | nil => exact absurd hbc (by simp [lexLe])
      | cons z zs =>
        rw [lexLe_cons_eq] at hab hbc ⊢
        by_cases h1 : x < y
        · by_cases h2 : y < z
          · rw [if_pos (lt_trans h1 h2)]
          · by_cases h3 : z < y
            · rw [if_neg h2, if_pos h3] at hbc
              exact absurd hbc (by simp)
            · have hyz : y = z := le_antisymm (not_lt.1 h3) (not_lt.1 h2)
              subst hyz
              rw [if_pos h1]
        · by_cases h1' : y < x
          · rw [if_neg h1, if_pos h1'] at hab
            exact absurd hab (by simp)
          · have hxy : x = y := le_antisymm (not_lt.1 h1') (not_lt.1 h1)
            subst hxy
            rw [if_neg h1, if_neg h1'] at hab
            by_cases h2 : x < z
            · rw [if_pos h2]
            · by_cases h3 : z < x
              · rw [if_neg h2, if_pos h3] at hbc
                exact absurd hbc (by simp)
              · have hxz : x = z := le_antisymm (not_lt.1 h3) (not_lt.1 h2)
                subst hxz
                rw [if_neg h2, if_neg h3] at hbc ⊢
                exact ih ys zs hab hbc

instance : IsTotal String StrLe := ⟨fun a b => lexLe_total a.data b.data⟩

instance : IsTrans String StrLe := ⟨fun a b c => lexLe_trans a.data b.data c.data⟩

/-- A concrete simulator payload with two supported runtimes, listed with
the older runtime first. -/
def exampleDevicesPayload : DevicesPayload :=
  ⟨some [("com.apple.CoreSimulator.SimRuntime.iOS-16-4",
          [⟨"iPhone 14", "UDID-16", "Shutdown", true⟩]),
         ("com.apple.CoreSimulator.SimRuntime.iOS-17-5",
          [⟨"iPhone 15", "UDID-17", "Booted", true⟩])]⟩

/-- C4: `parseJSONString` flattens the devices runtime block by runtime
block, visiting the matching runtime keys in descending lexical order; in
particular with runtimes `iOS-17-5` and `iOS-16-4` both allow-listed, every
`iOS-17-5` device precedes every `iOS-16-4` device. -/
theorem parseJSONString_descending_runtime_order (payload : DevicesPayload)
    (supported : List String) :
    parseJSONString (some payload) supported =
      .ok ((sortedRuntimeKeys (payload.devices.getD []) supported).flatMap
        (fun k => (lookupKey k (payload.devices.getD [])).map
          (fun device => mkIOSSimulatorDevice device.name device.udid device.state k
            device.isAvailable))) ∧
    List.Pairwise (fun a b => StrLe b a)
      (sortedRuntimeKeys (payload.devices.getD []) supported) ∧
    parseJSONString (some exampleDevicesPayload) ["iOS-17-5", "iOS-16-4"] =
      .ok [⟨"iPhone 15", "UDID-17", "Booted", "iOS 17.5", true⟩,
           ⟨"iPhone 14", "UDID-16", "Shutdown", "iOS 16.4", true⟩] := by
  refine ⟨rfl, ?_, by decide⟩
  exact List.pairwise_reverse.2 (List.sorted_insertionSort StrLe _)

/-! ### Lemmas about the replace helpers -/

lemma replaceFirst_of_self_append (pat repl rest : List Char) (h : pat ≠ []) :
    replaceFirst pat repl (pat ++ rest) = repl ++ rest := by
  cases pat with
  | nil => exact absurd rfl h
  | cons c cs =>
    show replaceFirst (c :: cs) repl (c :: (cs ++ rest)) = repl ++ rest
    rw [replaceFirst]
    rw [if_pos (List.isPrefixOf_iff_prefix.2 ⟨rest, by simp⟩)]
    congr 1
    rw [show c :: (cs ++ rest) = (c :: cs) ++ rest from rfl, List.drop_left]

lemma replaceFirst_dash (p suffix : List Char) (hp : '-' ∉ p) :
    replaceFirst ['-'] [' '] (p ++ '-' :: suffix) = p ++ ' ' :: suffix := by
  induction p with
  | nil =>
    exact replaceFirst_of_self_append ['-'] [' '] suffix (by simp)
  | cons c cs ih =>
    have hc : ('-' : Char) ≠ c := fun h => hp (by rw [h]; exact List.mem_cons_self c cs)
    rw [List.cons_append, replaceFirst,
      if_neg (by simp [List.isPrefixOf, hc]),
      ih fun hm => hp (List.mem_cons_of_mem c hm), List.cons_append]

lemma replaceAll_no_target (t r : Char) (p : List Char) (hp : t ∉ p) :
    replaceAll t r p = p := by
  rw [replaceAll]
  conv_rhs => rw [← List.map_id p]
  refine List.map_congr_left fun c hc => ?_
  have : c ≠ t := fun h => hp (h ▸ hc)
  simp [this]

/-- C8: the constructor derives the runtime label by stripping the
`com.apple.CoreSimulator.SimRuntime.` prefix, replacing only the first `-`
with a space and every remaining `-` with `.`; the identifier suffix
`iOS-17-5` yields the label `iOS 17.5`. -/
theorem sim_runtime_label_conversion (p suffix : List Char) (hp : '-' ∉ p) :
    simRuntimeLabel ("com.apple.CoreSimulator.SimRuntime.".data ++ p ++ '-' :: suffix) =
      p ++ ' ' :: replaceAll '-' '.' suffix ∧
    (mkIOSSimulatorDevice "iPhone 15" "UDID-17" "Booted"
        "com.apple.CoreSimulator.SimRuntime.iOS-17-5" true).runtimeId = "iOS 17.5" := by
  refine ⟨?_, by decide⟩
  rw [simRuntimeLabel, List.append_assoc,
    replaceFirst_of_self_append _ _ _ (by decide), List.nil_append,
    replaceFirst_dash p suffix hp, replaceAll, List.map_append]
  rw [← replaceAll, replaceAll_no_target _ _ p hp]
  simp [replaceAll]

/-- Witness for C8 at the identifier suffix `iOS-17-5`. -/
theorem sim_runtime_label_conversion_witness :
    simRuntimeLabel ("com.apple.CoreSimulator.SimRuntime.".data ++ "iOS".data ++ '-' :: "17-5".data) =
      "iOS".data ++ ' ' :: replaceAll '-' '.' "17-5".data :=
  (sim_runtime_label_conversion "iOS".data "17-5".data (by decide)).1

/-- C10: when the version regex matches with an absent `Minor` and/or
`Patch` group, `Version.from` defaults the missing components to 0;
consequently `"7"`, `"7.0"` and `"7.0.0"` all parse to the same `Version`
and `Version.compare` returns 0 between any two of them. -/
theorem version_from_absent_components_default_zero (s : String) (g : RegexGroups)
    (h : versionRegexExec (trimChars s.data) = some g) :
    (g.minor = none → ∃ v, Version.fromString s = some v ∧ v.minor = 0) ∧
    (g.patch = none → ∃ v, Version.fromString s = some v ∧ v.patch = 0) ∧
    Version.fromString "7" = some ⟨7, 0, 0⟩ ∧
    Version.fromString "7.0" = some ⟨7, 0, 0⟩ ∧
    Version.fromString "7.0.0" = some ⟨7, 0, 0⟩ ∧
    Version.compareE (.str "7") (.str "7.0") = .ok 0 ∧
    Version.compareE (.str "7") (.str "7.0.0") = .ok 0 ∧
    Version.compareE (.str "7.0") (.str "7.0.0") = .ok 0 := by
  refine ⟨fun hm => ?_, fun hq => ?_,
    by decide, by decide, by decide, by decide, by decide, by decide⟩
  · exact ⟨_, by rw [Version.fromString, h], by simp [hm]⟩
  · exact ⟨_, by rw [Version.fromString, h], by simp [hq]⟩

/-- Witness for C10 at the input `"7"`, whose regex match leaves both the
`Minor` and `Patch` groups unset. -/
theorem version_from_absent_components_default_zero_witness :
    (∃ v, Version.fromString "7" = some v ∧ v.minor = 0) ∧
    (∃ v, Version.fromString "7" = some v ∧ v.patch = 0) :=
  ⟨(version_from_absent_components_default_zero "7" ⟨['7'], none, none, none⟩
      (by decide)).1 rfl,
   (version_from_absent_components_default_zero "7" ⟨['7'], none, none, none⟩
      (by decide)).2.1 rfl⟩

/-- A concrete iOS launch environment (an existing simulator is found). -/
def exampleIOSEnv : IOSEnv :=
  ⟨"iPhone 15", "c/helloWorld", "/proj", "browser", "3333", "iPhone-15",
   "iOS-17-5", some "UDID-1234", "UDID-created", true, true, false,
   "c/helloWorld"⟩

/-- Witness for C9 at concrete environments for both launchers. -/
theorem browser_preview_urls_witness :
    LaunchOp.launchURLIntent
        ("http://10.0.2.2:" ++ exampleAndroidEnv.serverPort ++ "/lwc/preview/" ++
          exampleAndroidEnv.compPath)
        exampleAndroidEnv.actualPort ∈ androidLaunchPreview exampleAndroidEnv ∧
    LaunchOp.launchURLInBootedSimulator (iosDeviceUDID exampleIOSEnv)
        ("http://localhost:" ++ exampleIOSEnv.serverPort ++ "/lwc/preview/" ++
          exampleIOSEnv.compPath)
      ∈ iosLaunchPreview exampleIOSEnv :=
  ⟨(browser_preview_urls exampleAndroidEnv exampleIOSEnv rfl rfl rfl rfl rfl).1,
   (browser_preview_urls exampleAndroidEnv exampleIOSEnv rfl rfl rfl rfl rfl).2.1⟩

/-! ### Digit-printing round-trip lemmas (for the parse/print claim) -/

lemma char_le_toNat (a b : Char) (h : a ≤ b) : a.toNat ≤ b.toNat := Char.le_def.1 h

lemma char_digit_toNat_bounds (c : Char) (h : c.isDigit = true) :
    48 ≤ c.toNat ∧ c.toNat ≤ 57 := by
  simp only [Char.isDigit, Bool.and_eq_true, decide_eq_true_eq] at h
  exact ⟨char_le_toNat '0' c h.1, char_le_toNat c '9' h.2⟩

lemma digit_char_eq (c : Char) (h : c.isDigit = true) :
    Char.ofNat (48 + (c.toNat - 48)) = c := by
  obtain ⟨h1, _⟩ := char_digit_toNat_bounds c h
  rw [Nat.add_sub_cancel' h1, Char.ofNat_toNat]

lemma digitsVal_append_digit (l : List Char) (c : Char) :
    digitsVal (l ++ [c]) = digitsVal l * 10 + (c.toNat - 48) := by
  simp [digitsVal, List.foldl_append]

lemma foldl_step_pos (cs : List Char) :
    ∀ a, 1 ≤ a → 1 ≤ cs.foldl (fun a c => a * 10 + (c.toNat - 48)) a := by
  induction cs with
  | nil => intro a ha; exact ha
  | cons c cs ih => intro a ha; exact ih (a * 10 + (c.toNat - 48)) (by omega)

lemma digitsVal_pos (c : Char) (cs : List Char) (h1 : '1' ≤ c) :
    1 ≤ digitsVal (c :: cs) := by
  have hb : 49 ≤ c.toNat := char_le_toNat '1' c h1
  have h0 : 1 ≤ c.toNat - 48 := by omega
  simpa [digitsVal] using foldl_step_pos cs _ h0

lemma natToCharsAux_congr : ∀ f g n : Nat, n < f → n < g →
    natToCharsAux f n = natToCharsAux g n := by
  intro f
  induction f with
  | zero => intro g n hf _; exact absurd hf (Nat.not_lt_zero n)
  | succ f ih =>
    intro g n hf hg
    cases g with
    | zero => exact absurd hg (Nat.not_lt_zero n)
    | succ g =>
      rw [natToCharsAux, natToCharsAux]
      by_cases h10 : n < 10
      · rw [if_pos h10, if_pos h10]
      · rw [if_neg h10, if_neg h10]
        have hd : n / 10 < n := Nat.div_lt_self (by omega) (by norm_num)
        rw [ih g (n / 10) (by omega) (by omega)]

lemma natToChars_lt10 (n : Nat) (h : n < 10) :
    natToChars n = [Char.ofNat (48 + n)] := by
  rw [natToChars, natToCharsAux, if_pos h]

lemma natToChars_ge10 (n : Nat) (h : 10 ≤ n) :
    natToChars n = natToChars (n / 10) ++ [Char.ofNat (48 + n % 10)] := by
  have hd : n / 10 < n := Nat.div_lt_self (by omega) (by norm_num)
  rw [natToChars, natToChars, natToCharsAux, if_neg (by omega)]
  congr 1
  exact natToCharsAux_congr n (n / 10 + 1) (n / 10) (by omega) (by omega)

lemma natToChars_digitsVal_aux (c : Char) (h1 : '1' ≤ c) (h9 : c ≤ '9') :
    ∀ cs, cs.all Char.isDigit = true → natToChars (digitsVal (c :: cs)) = c :: cs := by
  intro cs
  induction cs using List.reverseRecOn with
  | nil =>
    intro _
    have hb : 49 ≤ c.toNat := char_le_toNat '1' c h1
    have hb9 : c.toNat ≤ 57 := char_le_toNat c '9' h9
    have hv : digitsVal [c] = c.toNat - 48 := by simp [digitsVal]
    rw [hv, natToChars_lt10 _ (by omega), Nat.add_sub_cancel' (by omega), Char.ofNat_toNat]
  | append_singleton xs d ih =>
    intro hall
    rw [List.all_append, Bool.and_eq_true] at hall
    obtain ⟨hxs, hd1⟩ := hall
    have hd : d.isDigit = true := by simpa using hd1
    have hdb := char_digit_toNat_bounds d hd
    rw [show c :: (xs ++ [d]) = (c :: xs) ++ [d] from rfl, digitsVal_append_digit]
    have hv : 1 ≤ digitsVal (c :: xs) := digitsVal_pos c xs h1
    have h10 : 10 ≤ digitsVal (c :: xs) * 10 + (d.toNat - 48) := by omega
    rw [natToChars_ge10 _ h10]
    have hdiv : (digitsVal (c :: xs) * 10 + (d.toNat - 48)) / 10 = digitsVal (c :: xs) := by
      rw [Nat.mul_comm, Nat.mul_add_div (by norm_num)]
      omega
    have hmod : (digitsVal (c :: xs) * 10 + (d.toNat - 48)) % 10 = d.toNat - 48 := by
      rw [Nat.mul_comm, Nat.mul_add_mod]
      omega
    rw [hdiv, hmod, ih hxs, digit_char_eq d hd]

lemma natToChars_digitsVal (l : List Char) (h : numLit l = true) :
    natToChars (digitsVal l) = l := by
  cases l with
  | nil => simp [numLit] at h
  | cons c cs =>
    simp only [numLit, Bool.or_eq_true, Bool.and_eq_true, decide_eq_true_eq,
      List.isEmpty_iff, beq_iff_eq] at h
    rcases h with ⟨rfl, rfl⟩ | ⟨⟨hc1, hc9⟩, hall⟩
    · decide
    · exact natToChars_digitsVal_aux c hc1 hc9 cs hall

lemma numLit_all_digit (l : List Char) (h : numLit l = true) :
    ∀ x ∈ l, x.isDigit = true := by
  cases l with
  | nil => simp
  | cons c cs =>
    simp only [numLit, Bool.or_eq_true, Bool.and_eq_true, decide_eq_true_eq,
      List.isEmpty_iff, beq_iff_eq] at h
    intro x hx
    rcases h with ⟨rfl, rfl⟩ | ⟨⟨hc1, hc9⟩, hall⟩
    · simp only [List.mem_singleton] at hx
      subst hx
      decide
    · rcases List.mem_cons.1 hx with rfl | hx2
      · simp only [Char.isDigit, Bool.and_eq_true, decide_eq_true_eq]
        exact ⟨le_trans (show ('0' : Char) ≤ '1' by decide) hc1, hc9⟩
      · exact List.all_eq_true.1 hall x hx2

lemma digit_not_ws (c : Char) (h : c.isDigit = true) : c.isWhitespace = false := by
  obtain ⟨h1, h2⟩ := char_digit_toNat_bounds c h
  by_contra hws
  rw [Bool.not_eq_false] at hws
  simp only [Char.isWhitespace, Bool.or_eq_true, decide_eq_true_eq] at hws
  rcases hws with ((rfl | rfl) | rfl) | rfl <;> exact absurd h1 (by decide)

lemma digit_not_sep (c : Char) (h : c.isDigit = true) : isSep c = false := by
  obtain ⟨h1, h2⟩ := char_digit_toNat_bounds c h
  by_contra hs
  rw [Bool.not_eq_false] at hs
  simp only [isSep, Bool.or_eq_true, beq_iff_eq] at hs
  rcases hs with rfl | rfl <;> exact absurd h1 (by decide)

lemma dropWhile_eq_self_of_all_false (p : Char → Bool) (l : List Char)
    (h : ∀ x ∈ l, p x = false) : l.dropWhile p = l := by
  cases l with
  | nil => rfl
  | cons c cs => simp [List.dropWhile_cons, h c (List.mem_cons_self c cs)]

lemma trimChars_eq_self (l : List Char) (h : ∀ x ∈ l, x.isWhitespace = false) :
    trimChars l = l := by
  rw [trimChars, dropWhile_eq_self_of_all_false _ _ h,
    dropWhile_eq_self_of_all_false _ _ fun x hx => h x (List.mem_reverse.1 hx),
    List.reverse_reverse]

lemma breakSeps_sepFree_append (p l : List Char) (h : ∀ x ∈ p, isSep x = false) :
    breakSeps (p ++ l) = (p ++ (breakSeps l).1, (breakSeps l).2) := by
  induction p with
  | nil => simp
  | cons c cs ih =>
    rw [List.cons_append, breakSeps]
    simp only [h c (List.mem_cons_self c cs), Bool.false_eq_true, if_false]
    rw [ih fun x hx => h x (List.mem_cons_of_mem c hx)]
    simp

lemma breakSeps_sepFree (l : List Char) (h : ∀ x ∈ l, isSep x = false) :
    breakSeps l = (l, []) := by
  simpa [breakSeps] using breakSeps_sepFree_append l [] h

lemma breakSeps_dot_cons (l : List Char) :
    breakSeps ('.' :: l) = ([], ('.', (breakSeps l).1) :: (breakSeps l).2) := by
  simp [breakSeps, isSep]

/-- C7 counterexample: the claim's round-trip fails when the consistent
separator is `-`: `"1-2-3"` parses successfully but prints as `"1.2.3"`. -/
theorem version_roundtrip_fails_for_dash :
    (Version.fromString "1-2-3").map versionToString = some "1.2.3" ∧
    ("1.2.3" : String) ≠ "1-2-3" := by
  exact ⟨by decide, by decide⟩

/-- C7 (amended to the `.` separator): for three components that are
non-negative integers with no leading zeros joined by `.`, parsing then
printing round-trips. -/
theorem version_roundtrip_dot_separator (a b c : List Char)
    (ha : numLit a = true) (hb : numLit b = true) (hc : numLit c = true) :
    (Version.fromString ⟨a ++ ('.' :: (b ++ ('.' :: c)))⟩).map versionToString =
      some ⟨a ++ ('.' :: (b ++ ('.' :: c)))⟩ := by
  have hsa : ∀ x ∈ a, isSep x = false := fun x hx => digit_not_sep x (numLit_all_digit a ha x hx)
  have hsb : ∀ x ∈ b, isSep x = false := fun x hx => digit_not_sep x (numLit_all_digit b hb x hx)
  have hsc : ∀ x ∈ c, isSep x = false := fun x hx => digit_not_sep x (numLit_all_digit c hc x hx)
  have hws : ∀ x ∈ a ++ ('.' :: (b ++ ('.' :: c))), x.isWhitespace = false := by
    intro x hx
    simp only [List.mem_append, List.mem_cons] at hx
    rcases hx with h | rfl | h | rfl | h
    · exact digit_not_ws x (numLit_all_digit a ha x h)
    · decide
    · exact digit_not_ws x (numLit_all_digit b hb x h)
    · decide
    · exact digit_not_ws x (numLit_all_digit c hc x h)
  have htrim : trimChars (⟨a ++ ('.' :: (b ++ ('.' :: c)))⟩ : String).data =
      a ++ ('.' :: (b ++ ('.' :: c))) := trimChars_eq_self _ hws
  have hbs : breakSeps (a ++ ('.' :: (b ++ ('.' :: c)))) = (a, [('.', b), ('.', c)]) := by
    rw [breakSeps_sepFree_append a _ hsa, breakSeps_dot_cons,
      breakSeps_sepFree_append b _ hsb, breakSeps_dot_cons, breakSeps_sepFree c hsc]
    simp
  have hexec : versionRegexExec (a ++ ('.' :: (b ++ ('.' :: c)))) =
      some ⟨a, some '.', some b, some c⟩ := by
    rw [versionRegexExec, hbs]
    simp [ha, hb, hc]
  have hfrom : Version.fromString ⟨a ++ ('.' :: (b ++ ('.' :: c)))⟩ =
      some ⟨(digitsVal a : Nat), (digitsVal b : Nat), (digitsVal c : Nat)⟩ := by
    rw [Version.fromString, htrim, hexec]
    rfl
  have hint : ∀ n : Nat, intToChars (n : Int) = natToChars n := by
    intro n
    rw [intToChars, if_neg (by exact Int.not_lt.mpr (Int.natCast_nonneg n)), Int.toNat_ofNat]
  rw [hfrom, Option.map_some', versionToString]
  simp only [hint]
  rw [natToChars_digitsVal a ha, natToChars_digitsVal b hb, natToChars_digitsVal c hc]
  simp

/-- Witness for C7's amended round-trip at `"28.0.3"`. -/
theorem version_roundtrip_dot_separator_witness :
    (Version.fromString ⟨"28".data ++ ('.' :: ("0".data ++ ('.' :: "3".data)))⟩).map
        versionToString =
      some ⟨"28".data ++ ('.' :: ("0".data ++ ('.' :: "3".data)))⟩ :=
  version_roundtrip_dot_separator "28".data "0".data "3".data
    (by decide) (by decide) (by decide)
